import Mathlib

/-!
Verification of the stanford-who directory scraper
(`stanford-who/stanfordwho_scraper.py`).

The Python source is shallowly embedded: the DOM is modelled as query
functions from selector strings to lists of elements, element text is a
plain string, and Python exceptions raised by the browser adapter are
modelled with `Except Unit` oracles.  Each embedded definition keeps the
name and the control structure of the source function it translates.
-/

set_option autoImplicit false

namespace StanfordWho

/-! ## String utilities mirroring the Python primitives

All of them are structurally recursive over the character list of the
string, so that every definition evaluates on concrete inputs. -/

/-- Split a character list at every character satisfying `p` (the pieces
may be empty, as with Python `re`-free splitting). -/
def splitOnPred (p : Char → Bool) : List Char → List (List Char)
  | [] => [[]]
  | c :: cs =>
    if p c then [] :: splitOnPred p cs
    else
      match splitOnPred p cs with
      | [] => [[c]]
      | l :: ls => (c :: l) :: ls

/-- Python `str.split()` with no argument: split on whitespace runs,
dropping empty tokens. -/
def pySplitWs (s : String) : List String :=
  ((splitOnPred Char.isWhitespace s.toList).map String.mk).filter (fun t => t ≠ "")

/-- Does `needle` occur at the start of the character list? -/
def leadsWith : List Char → List Char → Bool
  | [], _ => true
  | _ :: _, [] => false
  | a :: as, b :: bs => a == b && leadsWith as bs

/-- Does `needle` occur anywhere in the character list? -/
def containsSeq (needle : List Char) : List Char → Bool
  | [] => needle.isEmpty
  | c :: cs => leadsWith needle (c :: cs) || containsSeq needle cs

/-- Python `needle in hay` substring test (for non-empty needles). -/
def occursIn (needle hay : String) : Bool :=
  containsSeq needle.toList hay.toList

/-- Drop the characters satisfying `p` from both ends of a character list. -/
def stripEnds (p : Char → Bool) (cs : List Char) : List Char :=
  ((cs.dropWhile p).reverse.dropWhile p).reverse

/-- Python `str.strip()` with no argument: trim whitespace from both ends. -/
def pyTrim (s : String) : String :=
  String.mk (stripEnds Char.isWhitespace s.toList)

/-- Python `s.strip(chars)`: remove any of the given characters from both
ends of the string. -/
def pyStripChars (chars : String) (s : String) : String :=
  String.mk (stripEnds (fun c => chars.toList.contains c) s.toList)

/-- Drop the characters satisfying `p` from the right end only. -/
def stripRight (p : Char → Bool) (cs : List Char) : List Char :=
  (cs.reverse.dropWhile p).reverse

/-- Trailing-only variant of character stripping (used to state what the
spec literally says about punctuation stripping). -/
def pyStripTrailing (chars : String) (s : String) : String :=
  String.mk (stripRight (fun c => chars.toList.contains c) s.toList)

/-- The suffix after the first occurrence of `needle` (empty when `needle`
never occurs; guarded by `containsSeq` at the call site). -/
def suffixAfter (needle : List Char) : List Char → List Char
  | [] => []
  | c :: cs =>
    if leadsWith needle (c :: cs) then (c :: cs).drop needle.length
    else suffixAfter needle cs

/-- Python `s.split(sep, 1)[-1]`: everything after the first occurrence of
`sep`, or `s` itself when `sep` does not occur. -/
def afterFirst (sep s : String) : String :=
  if containsSeq sep.toList s.toList then String.mk (suffixAfter sep.toList s.toList)
  else s

/-- The punctuation set stripped from email tokens, from
`extract_email_from_text`. -/
def punctChars : String := ",;()[]"

/-- Python `[ln.strip() for ln in s.splitlines() if ln.strip()]` for
newline-separated element text: non-empty trimmed lines. -/
def textLines (s : String) : List String :=
  ((splitOnPred (fun c => c == Char.ofNat 10) s.toList).map
    (fun cs => pyTrim (String.mk cs))).filter (fun l => l ≠ "")

/-- Python `str.isdigit` restricted to ASCII digits: non-empty and all
characters decimal digits. -/
def pyIsDigit (s : String) : Bool :=
  !s.toList.isEmpty && s.toList.all Char.isDigit

/-- Python `int(...)` on a digit string. -/
def pyInt (s : String) : Nat :=
  s.toList.foldl (fun n c => 10 * n + (c.toNat - 48)) 0

/-- Truthiness of Python `Optional[str]`: `None` and `""` are falsy. -/
def optTruthy : Option String → Bool
  | some s => s ≠ ""
  | none => false

/-! ## `extract_email_from_text` (lines 77-82) -/

/-- Embeds `extract_email_from_text`: scan whitespace tokens for the first one
containing `@stanford.edu`; return it with `token.strip().strip(",;()[]")`
applied (Python strips those characters from BOTH ends). -/
def extract_email_from_text (text : String) : Option String :=
  (pySplitWs text).findSome? (fun token =>
    if occursIn "@stanford.edu" token then
      some (pyStripChars punctChars (pyTrim token))
    else none)

/-- The fallback as claim C9 words it: only TRAILING punctuation is
stripped and the leading characters of the token are left unchanged. -/
def extract_email_from_text_claimC9 (text : String) : Option String :=
  (pySplitWs text).findSome? (fun token =>
    if occursIn "@stanford.edu" token then
      some (pyStripTrailing punctChars token)
    else none)

/-! ## `find_cards` (lines 52-74) -/

/-- The ordered candidate card selectors from `find_cards`. -/
def card_candidates : List String :=
  [".t-Card", ".t-ContentCard", ".t-ContentRow", ".t-ContentRow-wrap",
   ".t-ContentRow-content", ".t-SearchResults-item", ".t-Region .t-Card",
   "li.a-IRR-tableRow"]

/-- Embeds `find_cards`: evaluate every candidate selector against the page and
keep the result set whose match count is strictly greater than the best
seen so far (so the earliest candidate wins ties); start from the empty
set. `dom` is the `find_elements` query of the page. -/
def find_cards {α : Type} (dom : String → List α) : List α :=
  card_candidates.foldl
    (fun best sel => if (dom sel).length > best.length then dom sel else best)
    []

theorem foldl_best_length_le {α : Type} (dom : String → List α)
    (l : List String) (best : List α) :
    best.length ≤
      (l.foldl (fun b sel => if (dom sel).length > b.length then dom sel else b)
        best).length := by
  induction l generalizing best with
  | nil => simp
  | cons s t ih =>
    simp only [List.foldl_cons]
    by_cases h : (dom s).length > best.length
    · simp only [h, if_pos]
      exact Nat.le_trans (Nat.le_of_lt h) (ih (dom s))
    · simp only [h, if_neg]
      exact ih best

theorem foldl_best_spec {α : Type} (dom : String → List α)
    (l : List String) (best : List α) :
    (∀ s ∈ l, (dom s).length ≤
        (l.foldl (fun b sel => if (dom sel).length > b.length then dom sel else b)
          best).length) ∧
    ((l.foldl (fun b sel => if (dom sel).length > b.length then dom sel else b)
        best) = best ∨
      ∃ i, ∃ hi : i < l.length,
        (l.foldl (fun b sel => if (dom sel).length > b.length then dom sel else b)
          best) = dom (l.get ⟨i, hi⟩) ∧
        best.length <
          (l.foldl (fun b sel => if (dom sel).length > b.length then dom sel else b)
            best).length ∧
        ∀ j, ∀ hj : j < l.length, j < i →
          (dom (l.get ⟨j, hj⟩)).length <
            (l.foldl (fun b sel => if (dom sel).length > b.length then dom sel else b)
              best).length) := by
  induction l generalizing best with
  | nil => exact ⟨by simp, Or.inl rfl⟩
  | cons s t ih =>
    simp only [List.foldl_cons]
    by_cases h : (dom s).length > best.length
    · simp only [h, if_pos]
      obtain ⟨ihle, ihcase⟩ := ih (dom s)
      constructor
      · intro x hx
        rcases hx with _ | hx
        · exact foldl_best_length_le dom t (dom s)
        · exact ihle x (by assumption)
      · right
        rcases ihcase with heq | ⟨i, hi, hieq, hlt, hfirst⟩
        · refine ⟨0, by simp, ?_, ?_, ?_⟩
          · simpa using heq
          · rw [heq]; exact h
          · intro j hj hj0; omega
        · refine ⟨i + 1, by simpa using Nat.succ_lt_succ hi, ?_, ?_, ?_⟩
          · simpa using hieq
          · exact Nat.lt_trans h hlt
          · intro j hj hji
            match j with
            | 0 => exact hlt
            | jv + 1 =>
              have hjv : jv < t.length := by simpa using Nat.lt_of_succ_lt_succ hj
              have : jv < i := Nat.lt_of_succ_lt_succ hji
              simpa using hfirst jv hjv this
    · simp only [h, if_neg]
      obtain ⟨ihle, ihcase⟩ := ih best
      constructor
      · intro x hx
        rcases hx with _ | hx
        · exact Nat.le_trans (Nat.le_of_not_lt h) (foldl_best_length_le dom t best)
        · exact ihle x (by assumption)
      · rcases ihcase with heq | ⟨i, hi, hieq, hlt, hfirst⟩
        · exact Or.inl heq
        · right
          refine ⟨i + 1, by simpa using Nat.succ_lt_succ hi, by simpa using hieq, hlt, ?_⟩
          intro j hj hji
          match j with
          | 0 =>
            show (dom s).length < _
            exact Nat.lt_of_le_of_lt (Nat.le_of_not_lt h) hlt
          | jv + 1 =>
            have hjv : jv < t.length := by simpa using Nat.lt_of_succ_lt_succ hj
            have : jv < i := Nat.lt_of_succ_lt_succ hji
            simpa using hfirst jv hjv this

/-- C2: `find_cards` evaluates the fixed ordered candidate selector list and
returns the element set of the candidate with the strictly greatest match
count, the earliest-declared candidate winning ties; when no candidate
matches anything it returns the empty sequence. -/
theorem find_cards_max_count {α : Type} (dom : String → List α) :
    (∃ i, ∃ hi : i < card_candidates.length,
      find_cards dom = dom (card_candidates.get ⟨i, hi⟩) ∧
      (∀ j, ∀ hj : j < card_candidates.length,
        (dom (card_candidates.get ⟨j, hj⟩)).length ≤ (find_cards dom).length) ∧
      (∀ j, ∀ hj : j < card_candidates.length, j < i →
        (dom (card_candidates.get ⟨j, hj⟩)).length < (find_cards dom).length)) ∧
    ((∀ sel ∈ card_candidates, dom sel = []) → find_cards dom = []) := by
  obtain ⟨hle, hcase⟩ := foldl_best_spec dom card_candidates []
  constructor
  · rcases hcase with heq | ⟨i, hi, hieq, _, hfirst⟩
    · refine ⟨0, by simp [card_candidates], ?_, ?_, ?_⟩
      · show find_cards dom = dom (".t-Card")
        unfold find_cards
        rw [heq]
        have h0 := hle ".t-Card" (by simp [card_candidates])
        unfold find_cards at *
        rw [heq] at h0
        simp only [List.length_nil, Nat.le_zero, List.length_eq_zero] at h0
        exact h0.symm
      · intro j hj
        exact hle (card_candidates.get ⟨j, hj⟩) (List.get_mem _ _ _)
      · intro j hj hj0; omega
    · exact ⟨i, hi, hieq,
        fun j hj => hle (card_candidates.get ⟨j, hj⟩) (List.get_mem _ _ _), hfirst⟩
  · intro hall
    unfold find_cards
    rcases hcase with heq | ⟨i, hi, hieq, hlt, _⟩
    · exact heq
    · rw [hieq]
      exact hall (card_candidates.get ⟨i, hi⟩) (List.get_mem _ _ _)

/-- Closed instance of `find_cards_max_count`: on a page where no candidate
selector matches anything, `find_cards` returns the empty sequence. -/
theorem find_cards_max_count_witness :
    find_cards (fun _ => ([] : List Nat)) = [] :=
  (find_cards_max_count (fun _ => ([] : List Nat))).2 (fun _ _ => rfl)

theorem findSome?_guard_map {α β : Type} (p : α → Bool) (g : α → β) (l : List α) :
    l.findSome? (fun a => if p a then some (g a) else none) = (l.find? p).map g := by
  induction l with
  | nil => rfl
  | cons a t ih =>
    by_cases h : p a
    · simp [List.findSome?_cons, List.find?_cons, h]
    · simp [List.findSome?_cons, List.find?_cons, h, ih]

/-- C9 counterexample: on the token `(jane@stanford.edu)` the code strips the
parenthesis from BOTH ends (Python `str.strip` is two-sided), while the claim
says only trailing punctuation is removed and leading characters are kept. -/
theorem extract_email_strip_counterexample :
    extract_email_from_text "(jane@stanford.edu)" = some "jane@stanford.edu" ∧
    extract_email_from_text_claimC9 "(jane@stanford.edu)" =
      some "(jane@stanford.edu" ∧
    ("jane@stanford.edu" : String) ≠ "(jane@stanford.edu" := by
  refine ⟨by decide, by decide, by decide⟩

/-- C9 amended: for every text, the fallback returns the FIRST whitespace
token containing `@stanford.edu`, trimmed and with the punctuation set
`,;()[]` stripped from BOTH ends (not only trailing), and returns no email
when no token contains the suffix. -/
theorem extract_email_from_text_amended (text : String) :
    extract_email_from_text text =
      ((pySplitWs text).find? (fun t => occursIn "@stanford.edu" t)).map
        (fun t => pyStripChars punctChars (pyTrim t)) :=
  findSome?_guard_map _ _ _

/-! ## `parse_card` (lines 118-213)

A card is modelled by the queries `parse_card` makes against it: the
scope-narrowing sub-element lookup, and — on the chosen scope — the
rendered text, the title-selector lookups, the structured description
text of the description sub-element (`none` models `find_element` raising), and the hrefs
of the mail-scheme anchors (an exception in that lookup behaves like an
empty list, as the `except: pass` does). -/

structure Elem where
  text : String
  href : Option String
deriving DecidableEq

structure Scope where
  text : String
  titleEl : String → Option Elem
  descText : Option String
  mailtoHrefs : List String

structure Card where
  subScope : String → Option Scope
  selfScope : Scope

structure PersonRow where
  name : String
  email : String
  affiliation : String
  department : String
deriving DecidableEq

/-- The scope-narrowing selectors (line 121). -/
def scope_selectors : List String :=
  [".t-ContentRow-wrap", ".t-Card-body", ".t-Card"]

/-- The title-like selector cascade (lines 138-147). -/
def title_selectors : List String :=
  ["a.t-Card-title", ".t-Card-title a", ".t-ContentCard-title a",
   ".t-ContentRow-content h3 a", ".t-ContentRow-content h3", "h3 a", "h3", "a"]

/-- Lines 120-129: the first scope selector whose `find_element` succeeds
wins; otherwise the card itself is the scope. -/
def chooseScope (card : Card) : Scope :=
  (scope_selectors.findSome? card.subScope).getD card.selfScope

/-- Lines 137-152: the loop breaks at the first selector whose
`find_element` succeeds, regardless of the text of that element. -/
def findNameEl (s : Scope) : Option Elem :=
  title_selectors.findSome? s.titleEl

/-- Line 153: `name_el.text.strip() if name_el and name_el.text else
text_lines[0]`. -/
def cardName (s : Scope) (lines : List String) : String :=
  match findNameEl s with
  | some el => if el.text ≠ "" then pyTrim el.text else lines.headD ""
  | none => lines.headD ""

/-- Line 174: a hyphen-surrounded separator or a literal role marker. -/
def markerLine (ln : String) : Bool :=
  occursIn " - " ln || occursIn "Student" ln || occursIn "Faculty" ln ||
    occursIn "Staff" ln

/-- Lines 157-171: the lines of the description sub-element when `find_element`
succeeds (no positional fallback in that case, even with zero sub-lines);
the positional fallback over `rest` only when it raises. -/
def deptAffilBase (s : Scope) (rest : List String) : String × String :=
  match s.descText with
  | some dt =>
    let descLines := textLines dt
    (descLines.headD "", descLines.getD 1 "")
  | none => (rest.headD "", rest.getD 1 "")

/-- Lines 172-176: the refinement scans `rest[1:3]`, the SECOND and THIRD
lines after the name. -/
def refineAffil (rest : List String) (guess : String) : String :=
  match ((rest.drop 1).take 2).find? markerLine with
  | some ln => ln
  | none => guess

/-- Lines 180-189: the mailto-anchor loop; the first non-empty address
after `mailto:` wins (an empty address does not stop the loop). -/
def emailFromMailtos (hrefs : List String) : Option String :=
  hrefs.findSome? (fun h =>
    if occursIn "mailto:" h then
      let e := pyTrim (afterFirst "mailto:" h)
      if e ≠ "" then some e else none
    else none)

/-- Python `"\n".join(lines)`. -/
def joinNL : List String → String
  | [] => ""
  | [l] => l
  | l :: ls => l ++ "\n" ++ joinNL ls

/-- Lines 179-206: the email chain — mailto anchors first, then the text
token fallback, then (only when enabled, the email is still falsy, a name
element was found and its href is truthy) the profile lookup, whose
exceptions are caught and yield `None`. -/
def cardEmail (allowProfileNav : Bool)
    (profile : String → Except Unit (Option String)) (scope : Scope)
    (lines : List String) : Option String :=
  let emailA := emailFromMailtos scope.mailtoHrefs
  let emailB :=
    if optTruthy emailA then emailA
    else extract_email_from_text (joinNL lines)
  if allowProfileNav && !(optTruthy emailB) then
    match findNameEl scope with
    | some el =>
      match el.href with
      | some hrefv =>
        if hrefv ≠ "" then
          match profile hrefv with
          | .ok r => r
          | .error _ => none
        else emailB
      | none => emailB
    | none => emailB
  else emailB

/-- Embeds `parse_card` (lines 118-213). `allowProfileNav` is the
`ALLOW_PROFILE_NAV` flag; `profile` models `get_email_from_profile`, with
`.error` an exception during the lookup (caught at lines 205-206). -/
def parse_card (allowProfileNav : Bool)
    (profile : String → Except Unit (Option String)) (card : Card) :
    Option PersonRow :=
  let scope := chooseScope card
  let lines := textLines scope.text
  if lines.isEmpty then none
  else
    let name := cardName scope lines
    let rest := lines.filter (fun ln => ln ≠ name)
    let base := deptAffilBase scope rest
    some { name := name,
           email := (cardEmail allowProfileNav profile scope lines).getD "",
           affiliation := refineAffil rest base.2, department := base.1 }

/-- The explicit record produced on any card with at least one text line. -/
theorem parse_card_pos (aN : Bool)
    (prof : String → Except Unit (Option String)) (card : Card)
    (hne : (textLines (chooseScope card).text).isEmpty = false) :
    parse_card aN prof card =
      some { name := cardName (chooseScope card) (textLines (chooseScope card).text),
             email := (cardEmail aN prof (chooseScope card)
                        (textLines (chooseScope card).text)).getD "",
             affiliation := refineAffil
               ((textLines (chooseScope card).text).filter
                 (fun ln => ln ≠ cardName (chooseScope card)
                   (textLines (chooseScope card).text)))
               (deptAffilBase (chooseScope card)
                 ((textLines (chooseScope card).text).filter
                   (fun ln => ln ≠ cardName (chooseScope card)
                     (textLines (chooseScope card).text)))).2,
             department := (deptAffilBase (chooseScope card)
               ((textLines (chooseScope card).text).filter
                 (fun ln => ln ≠ cardName (chooseScope card)
                   (textLines (chooseScope card).text)))).1 } := by
  simp only [parse_card, hne, Bool.false_eq_true, if_false]

/-- The per-card loop of `scrape_results` (lines 315-320): one
`parse_card` attempt per card, a row written exactly for the `some`
results. -/
def pageRows (allowProfileNav : Bool)
    (profile : String → Except Unit (Option String)) (cards : List Card) :
    List PersonRow :=
  cards.filterMap (parse_card allowProfileNav profile)

/-- A profile oracle that always raises (never consulted in these pages). -/
def profNone : String → Except Unit (Option String) := fun _ => Except.error ()

/-- C4: a card whose scope text has zero non-empty trimmed lines parses to
`none`, contributes no row to the page output (a skip, not an error), and
a page of cards yields at most one record attempt per card. -/
theorem parse_card_empty_skip (aN : Bool)
    (prof : String → Except Unit (Option String)) (card : Card)
    (h : textLines (chooseScope card).text = []) :
    parse_card aN prof card = none ∧
    (∀ pre post : List Card,
      pageRows aN prof (pre ++ card :: post) = pageRows aN prof (pre ++ post)) ∧
    (∀ cards : List Card, (pageRows aN prof cards).length ≤ cards.length) := by
  have hnone : parse_card aN prof card = none := by
    simp [parse_card, h]
  refine ⟨hnone, ?_, ?_⟩
  · intro pre post
    simp [pageRows, List.filterMap_append, List.filterMap_cons, hnone]
  · intro cards
    exact List.length_filterMap_le _ _

def emptyScope : Scope :=
  { text := "", titleEl := fun _ => none, descText := none, mailtoHrefs := [] }

def emptyCard : Card := { subScope := fun _ => none, selfScope := emptyScope }

/-- Closed instance of `parse_card_empty_skip` on a blank card. -/
theorem parse_card_empty_skip_witness :
    parse_card false profNone emptyCard = none ∧
    pageRows false profNone [emptyCard] = [] := by
  obtain ⟨h1, h2, _⟩ :=
    parse_card_empty_skip false profNone emptyCard (by decide)
  refine ⟨h1, ?_⟩
  have := h2 [] []
  simpa [pageRows] using this

def janeScope : Scope :=
  { text := "Jane Doe\nDept of X\nStudent - Foo",
    titleEl := fun _ => none, descText := none, mailtoHrefs := [] }

def janeCard : Card := { subScope := fun _ => none, selfScope := janeScope }

/-- C8: on a card whose scope text lines are exactly
`["Jane Doe", "Dept of X", "Student - Foo"]`, with no title selector
matching, no mail anchor and no `@stanford.edu` token, `parse_card`
yields name `Jane Doe`, empty email, department `Dept of X` and
affiliation `Student - Foo`. -/
theorem parse_card_jane :
    parse_card false profNone janeCard =
      some { name := "Jane Doe", email := "", affiliation := "Student - Foo",
             department := "Dept of X" } := by decide

/-! ## C5: department / affiliation heuristic -/

/-- Department/affiliation exactly as claim C5 words them: the structured
description is used only when it has AT LEAST ONE sub-line (otherwise the
positional fallback applies), and the refinement scans the FIRST TWO lines
after the name. -/
def deptAffil_claimC5 (s : Scope) (rest : List String) : String × String :=
  let base :=
    match s.descText with
    | some dt =>
      let descLines := textLines dt
      if descLines.isEmpty then (rest.headD "", rest.getD 1 "")
      else (descLines.headD "", descLines.getD 1 "")
    | none => (rest.headD "", rest.getD 1 "")
  match (rest.take 2).find? markerLine with
  | some ln => (base.1, ln)
  | none => base

def c5Scope : Scope :=
  { text := "Jane\nStudent - A\nx\ny",
    titleEl := fun _ => none,
    descText := some "",
    mailtoHrefs := [] }

def c5Card : Card := { subScope := fun _ => none, selfScope := c5Scope }

/-- C5 counterexample: on a card whose description sub-element exists but
has zero sub-lines and whose first line after the name carries a role
marker, the code leaves department and affiliation empty (no positional
fallback, and `rest[1:3]` misses the marker in `rest[0]`), while the claim
computes `Student - A` for both. -/
theorem parse_card_deptAffil_counterexample :
    parse_card false profNone c5Card =
      some { name := "Jane", email := "", affiliation := "",
             department := "" } ∧
    deptAffil_claimC5 c5Scope
        ((textLines c5Scope.text).filter (fun ln => ln ≠ "Jane")) =
      ("Student - A", "Student - A") ∧
    ("" : String) ≠ "Student - A" :=
  ⟨by decide, by decide, by decide⟩

/-- C5 amended: for every card with at least one text line, when the
structured description sub-element is found its first sub-line (if any)
becomes department and its second (if any) becomes affiliation, with NO
positional fallback even when it has zero sub-lines; only when the
sub-element lookup fails do the first and second remaining lines serve as
department and affiliation; then, if any of the SECOND and THIRD lines
after the name contains a hyphen-surrounded separator or one of the
literal markers `Student`, `Faculty`, `Staff`, the first such line
overrides the affiliation guess. -/
theorem parse_card_deptAffil_amended (aN : Bool)
    (prof : String → Except Unit (Option String)) (card : Card)
    (h : textLines (chooseScope card).text ≠ []) :
    ∃ row, parse_card aN prof card = some row ∧
      (let scope := chooseScope card
       let lines := textLines scope.text
       let rest := lines.filter (fun ln => ln ≠ cardName scope lines)
       row.department =
         (match scope.descText with
          | some dt => (textLines dt).headD ""
          | none => rest.headD "") ∧
       row.affiliation =
         (match ((rest.drop 1).take 2).find? markerLine with
          | some ln => ln
          | none =>
            match scope.descText with
            | some dt => (textLines dt).getD 1 ""
            | none => rest.getD 1 "")) := by
  have hne : (textLines (chooseScope card).text).isEmpty = false := by
    cases hx : textLines (chooseScope card).text with
    | nil => exact absurd hx h
    | cons a t => rfl
  refine ⟨_, parse_card_pos aN prof card hne, ?_, ?_⟩
  · show (deptAffilBase (chooseScope card) _).1 = _
    unfold deptAffilBase
    cases (chooseScope card).descText <;> simp
  · show refineAffil _ (deptAffilBase (chooseScope card) _).2 = _
    unfold refineAffil deptAffilBase
    cases (chooseScope card).descText <;> cases hf : List.find? markerLine _ <;>
      simp [hf]

/-- Closed instance of `parse_card_deptAffil_amended` at `c5Card`. -/
theorem parse_card_deptAffil_amended_witness :
    textLines (chooseScope c5Card).text ≠ [] ∧
    (parse_card false profNone c5Card).isSome = true := by
  refine ⟨by decide, ?_⟩
  obtain ⟨row, hrow, _⟩ :=
    parse_card_deptAffil_amended false profNone c5Card (by decide)
  rw [hrow]; rfl

/-! ## C6: name cascade -/

/-- The name as claim C6 words it: the first selector in the cascade that
yields NON-EMPTY TRIMMED text wins; only when no selector yields such text
is the first text line used. -/
def cardName_claimC6 (s : Scope) (lines : List String) : String :=
  match title_selectors.findSome? (fun sel =>
      match s.titleEl sel with
      | some el => if pyTrim el.text ≠ "" then some (pyTrim el.text) else none
      | none => none) with
  | some n => n
  | none => lines.headD ""

def c6Scope : Scope :=
  { text := "line1\nBob",
    titleEl := fun sel =>
      if sel = "a.t-Card-title" then some { text := " ", href := none }
      else if sel = "h3" then some { text := "Bob", href := none }
      else none,
    descText := none,
    mailtoHrefs := [] }

def c6Card : Card := { subScope := fun _ => none, selfScope := c6Scope }

/-- C6 counterexample: the first matching selector returns an element
whose text is a single space; the code stops the cascade there and trims
the space to the EMPTY name (never reaching the `h3` element with text
`Bob`, and leaving the name unpopulated although text lines exist), while
the cascade of the claim skips it and returns `Bob`. -/
theorem parse_card_name_counterexample :
    parse_card false profNone c6Card =
      some { name := "", email := "", affiliation := "Bob",
             department := "line1" } ∧
    cardName_claimC6 c6Scope (textLines c6Scope.text) = "Bob" ∧
    ("" : String) ≠ "Bob" :=
  ⟨by decide, by decide, by decide⟩

/-- C6 amended: for every card with at least one text line, the cascade
selects the FIRST title selector whose `find_element` succeeds, regardless
of its text; when the raw text of that element is non-empty its
trimmed text becomes the name (possibly empty after trimming, so the name
is not guaranteed non-empty), and otherwise — or when no selector matches —
the first text line is used. -/
theorem parse_card_name_amended (aN : Bool)
    (prof : String → Except Unit (Option String)) (card : Card)
    (h : textLines (chooseScope card).text ≠ []) :
    ∃ row, parse_card aN prof card = some row ∧
      row.name =
        (match title_selectors.findSome? (chooseScope card).titleEl with
         | some el =>
           if el.text ≠ "" then pyTrim el.text
           else (textLines (chooseScope card).text).headD ""
         | none => (textLines (chooseScope card).text).headD "") := by
  have hne : (textLines (chooseScope card).text).isEmpty = false := by
    cases hx : textLines (chooseScope card).text with
    | nil => exact absurd hx h
    | cons a t => rfl
  refine ⟨_, parse_card_pos aN prof card hne, ?_⟩
  show cardName (chooseScope card) _ = _
  unfold cardName findNameEl
  rfl

/-- Closed instance of `parse_card_name_amended` at `c6Card`. -/
theorem parse_card_name_amended_witness :
    textLines (chooseScope c6Card).text ≠ [] ∧
    (parse_card false profNone c6Card).isSome = true := by
  refine ⟨by decide, ?_⟩
  obtain ⟨row, hrow, _⟩ :=
    parse_card_name_amended false profNone c6Card (by decide)
  rw [hrow]; rfl

/-! ## `click_next_if_available` (lines 216-286)

A page is modelled by its two element queries (CSS and XPath).  An
element carries its text, visibility, enabledness, and whether clicking
it succeeds (`clickOk = false` models `click()` raising). -/

structure DElem where
  text : String
  displayed : Bool
  enabled : Bool
  clickOk : Bool
deriving DecidableEq

structure PageModel where
  css : String → List DElem
  xpath : String → List DElem

inductive NavEvent where
  | numClick (n : Nat)
  | nextClick (sel : String)
deriving DecidableEq

/-- The active-page indicator selectors (lines 221-229). -/
def candidates_active : List String :=
  ["strong[aria-current=\x27page\x27]", ".t-Report-paginationText strong",
   ".t-Report-paginationLink.is-active", ".t-Pagination-item.is-active",
   ".t-Report-pagination b", ".t-Report-pagination span.current",
   "table.a-IRR-pagination td span"]

/-- The tightly-scoped pagination-link XPath (line 249). -/
def next_link_xpath (n : Nat) : String :=
  "//a[contains(@class, \x27t-Report-paginationLink\x27) and normalize-space(text())=\x27"
    ++ toString n ++ "\x27]"

/-- The generic pagination-container XPath (line 251). -/
def generic_pagination_xpath (n : Nat) : String :=
  "//*[contains(@class, \x27t-Report-pagination\x27)]//a[normalize-space(text())=\x27"
    ++ toString n ++ "\x27]"

/-- The generic Next-control selectors (lines 265-269). -/
def next_button_candidates : List String :=
  ["a[aria-label=\x27Next\x27]", ".t-Report-paginationLink--next",
   "a[title=\x27Next\x27]"]

/-- Lines 230-236: the first active-page selector with any matches wins;
the indicator is the first element of that result. -/
def activeIndicator (p : PageModel) : Option DElem :=
  candidates_active.findSome? (fun sel => (p.css sel).head?)

/-- Lines 249-254: the first of the two XPath queries with any matches;
the clicked link is its first element. -/
def nextNumLink (p : PageModel) (n : Nat) : Option DElem :=
  [next_link_xpath n, generic_pagination_xpath n].findSome?
    (fun xp => (p.xpath xp).head?)

/-- The numeric phase (lines 218-262).  `true` means the numeric link was
clicked without raising; a click that raises is recorded as an attempt but
the `except` at line 261 swallows it (result `false`), after which the
generic fallback still runs.  A failing numeric click also prevents the
second XPath from being tried, exactly as the exception does in the
source. -/
def numericPhase (p : PageModel) : Bool × List NavEvent :=
  match activeIndicator p with
  | none => (false, [])
  | some el =>
    let t := pyTrim el.text
    if pyIsDigit t then
      let n := pyInt t + 1
      match nextNumLink p n with
      | none => (false, [])
      | some l => (l.clickOk, [NavEvent.numClick n])
    else (false, [])

/-- Lines 274-283: per-selector button loop; hidden or disabled buttons
are skipped, and a click that raises is swallowed and the loop
continues with the next button. -/
def tryButtons (sel : String) : List DElem → Bool × List NavEvent
  | [] => (false, [])
  | b :: bs =>
    if b.displayed && b.enabled then
      if b.clickOk then (true, [NavEvent.nextClick sel])
      else
        let r := tryButtons sel bs
        (r.1, NavEvent.nextClick sel :: r.2)
    else tryButtons sel bs

/-- Lines 264-286: the generic Next fallback over its selector cascade,
stopping at the first successful click. -/
def fallbackPhase (p : PageModel) : Bool × List NavEvent :=
  next_button_candidates.foldl
    (fun acc sel =>
      if acc.1 then acc
      else
        let r := tryButtons sel (p.css sel)
        (r.1, acc.2 ++ r.2))
    (false, [])

/-- Embeds `click_next_if_available` (lines 216-286), also recording the click
attempts made.  The Boolean is the return value of the function. -/
def click_next_if_available (p : PageModel) : Bool × List NavEvent :=
  let num := numericPhase p
  if num.1 then num
  else
    let fb := fallbackPhase p
    (fb.1, num.2 ++ fb.2)

/-- A successful numeric advance as claim C1 describes it: an active page
indicator with numeric trimmed text, and a link labelled with the next
page number — searched first by the tightly-scoped pagination-link XPath,
then inside the generic pagination container — whose click succeeds. -/
def NumericSuccess (p : PageModel) : Prop :=
  ∃ el l, activeIndicator p = some el ∧ pyIsDigit (pyTrim el.text) = true ∧
    nextNumLink p (pyInt (pyTrim el.text) + 1) = some l ∧ l.clickOk = true

/-- A successful generic advance: some Next-control selector yields a
button that is displayed, enabled, and whose click succeeds. -/
def GenericSuccess (p : PageModel) : Prop :=
  ∃ sel ∈ next_button_candidates, ∃ b ∈ p.css sel,
    b.displayed = true ∧ b.enabled = true ∧ b.clickOk = true

theorem numericPhase_true_iff (p : PageModel) :
    (numericPhase p).1 = true ↔ NumericSuccess p := by
  unfold numericPhase NumericSuccess
  cases hA : activeIndicator p with
  | none => simp
  | some el =>
    by_cases hd : pyIsDigit (pyTrim el.text) = true
    · cases hL : nextNumLink p (pyInt (pyTrim el.text) + 1) with
      | none => simp [hd, hL]
      | some l => simp [hd, hL]
    · simp only [Bool.not_eq_true] at hd
      simp [hd]

theorem tryButtons_true_iff (sel : String) (bs : List DElem) :
    (tryButtons sel bs).1 = true ↔
      ∃ b ∈ bs, b.displayed = true ∧ b.enabled = true ∧ b.clickOk = true := by
  induction bs with
  | nil => simp [tryButtons]
  | cons b t ih =>
    unfold tryButtons
    by_cases hd : (b.displayed && b.enabled) = true
    · rw [if_pos hd]
      obtain ⟨hdi, hen⟩ := Bool.and_eq_true_iff.mp hd
      by_cases hc : b.clickOk = true
      · rw [if_pos hc]
        constructor
        · intro _
          exact ⟨b, List.mem_cons_self b t, hdi, hen, hc⟩
        · intro _
          rfl
      · rw [if_neg hc]
        constructor
        · intro hx
          obtain ⟨c, hcmem, h1, h2, h3⟩ := ih.mp hx
          exact ⟨c, List.mem_cons_of_mem b hcmem, h1, h2, h3⟩
        · rintro ⟨c, hcmem, h1, h2, h3⟩
          rcases List.mem_cons.mp hcmem with rfl | hmem
          · exact absurd h3 hc
          · exact ih.mpr ⟨c, hmem, h1, h2, h3⟩
    · rw [if_neg hd]
      constructor
      · intro hx
        obtain ⟨c, hcmem, h1, h2, h3⟩ := ih.mp hx
        exact ⟨c, List.mem_cons_of_mem b hcmem, h1, h2, h3⟩
      · rintro ⟨c, hcmem, h1, h2, h3⟩
        rcases List.mem_cons.mp hcmem with rfl | hmem
        · exact absurd (by simp [h1, h2] : (c.displayed && c.enabled) = true) hd
        · exact ih.mpr ⟨c, hmem, h1, h2, h3⟩

theorem foldl_fallback_true_iff (p : PageModel) (sels : List String)
    (acc : Bool × List NavEvent) :
    (sels.foldl (fun acc sel =>
        if acc.1 then acc
        else
          let r := tryButtons sel (p.css sel)
          (r.1, acc.2 ++ r.2)) acc).1 = true ↔
      (acc.1 = true ∨ ∃ sel ∈ sels, (tryButtons sel (p.css sel)).1 = true) := by
  induction sels generalizing acc with
  | nil => simp
  | cons s t ih =>
    simp only [List.foldl_cons]
    by_cases ha : acc.1 = true
    · rw [if_pos ha, ih]
      simp [ha]
    · rw [if_neg ha, ih]
      constructor
      · rintro (hx | ⟨sel, hmem, hsel⟩)
        · exact Or.inr ⟨s, List.mem_cons_self s t, hx⟩
        · exact Or.inr ⟨sel, List.mem_cons_of_mem s hmem, hsel⟩
      · rintro (hacc | ⟨sel, hmem, hsel⟩)
        · exact absurd hacc ha
        · rcases List.mem_cons.mp hmem with rfl | hmem2
          · exact Or.inl hsel
          · exact Or.inr ⟨sel, hmem2, hsel⟩

theorem fallbackPhase_true_iff (p : PageModel) :
    (fallbackPhase p).1 = true ↔ GenericSuccess p := by
  unfold fallbackPhase GenericSuccess
  rw [foldl_fallback_true_iff]
  constructor
  · rintro (hfx | ⟨sel, hmem, hsel⟩)
    · exact absurd hfx Bool.false_ne_true
    · obtain ⟨b, hb, h1, h2, h3⟩ := (tryButtons_true_iff sel (p.css sel)).mp hsel
      exact ⟨sel, hmem, b, hb, h1, h2, h3⟩
  · rintro ⟨sel, hmem, b, hb, h1, h2, h3⟩
    exact Or.inr ⟨sel, hmem, (tryButtons_true_iff sel (p.css sel)).mpr ⟨b, hb, h1, h2, h3⟩⟩

/-- The page-advance loop of `scrape_results` (lines 295-331) over the
successive page states: each page is processed, then the loop continues to
the next page exactly when `click_next_if_available` returned `true`; the
`false` return triggers the single `break`. -/
def sessionRun : List PageModel → List PageModel
  | [] => []
  | p :: ps =>
    if (click_next_if_available p).1 then p :: sessionRun ps else [p]

/-- C1: `click_next_if_available` returns `true` exactly when either the
numeric path (active indicator + link labelled active+1) or the generic
visible-and-enabled Next control yields a successful click, and `false`
exactly when no control clicks successfully; a numeric-path failure does
not prevent the generic fallback (when the numeric phase did not succeed,
the result is exactly that of the fallback); and the `false` return is the sole
condition terminating the session loop: the loop visits every page while
the advance returns `true` and stops exactly at the first page where it
returns `false`. -/
theorem click_next_characterization :
    (∀ p : PageModel,
      ((click_next_if_available p).1 = true ↔
        (NumericSuccess p ∨ GenericSuccess p)) ∧
      ((numericPhase p).1 = false →
        (click_next_if_available p).1 = (fallbackPhase p).1)) ∧
    (∀ pages : List PageModel,
      ((∀ q ∈ pages, (click_next_if_available q).1 = true) →
        sessionRun pages = pages) ∧
      (∀ k, ∀ hk : k < pages.length,
        (∀ j, ∀ hj : j < pages.length, j < k →
          (click_next_if_available (pages.get ⟨j, hj⟩)).1 = true) →
        (click_next_if_available (pages.get ⟨k, hk⟩)).1 = false →
        sessionRun pages = pages.take (k + 1))) := by
  constructor
  · intro p
    constructor
    · unfold click_next_if_available
      by_cases hn : (numericPhase p).1 = true
      · rw [if_pos hn]
        exact ⟨fun _ => Or.inl ((numericPhase_true_iff p).mp hn), fun _ => hn⟩
      · rw [if_neg hn]
        rw [fallbackPhase_true_iff]
        constructor
        · exact Or.inr
        · rintro (hN | hG)
          · exact absurd ((numericPhase_true_iff p).mpr hN) hn
          · exact hG
    · intro hn
      unfold click_next_if_available
      rw [if_neg (by rw [hn]; exact Bool.false_ne_true)]
  · intro pages
    constructor
    · intro hall
      induction pages with
      | nil => rfl
      | cons p ps ih =>
        unfold sessionRun
        rw [if_pos (hall p (List.mem_cons_self p ps))]
        rw [ih (fun q hq => hall q (List.mem_cons_of_mem p hq))]
    · induction pages with
      | nil => intro k hk; exact absurd hk (Nat.not_lt_zero k)
      | cons p ps ih =>
        intro k hk hbefore hfalse
        match k with
        | 0 =>
          have hp0 : (click_next_if_available p).1 = false := hfalse
          unfold sessionRun
          rw [if_neg (by rw [hp0]; exact Bool.false_ne_true)]
          rfl
        | k + 1 =>
          have hp : (click_next_if_available p).1 = true :=
            hbefore 0 (Nat.succ_pos ps.length) (Nat.succ_pos k)
          unfold sessionRun
          rw [if_pos hp]
          have hks : k < ps.length := Nat.lt_of_succ_lt_succ hk
          have := ih k hks
            (fun j hj hjk =>
              hbefore (j + 1) (Nat.succ_lt_succ hj) (Nat.succ_lt_succ hjk))
            hfalse
          rw [this]
          rfl

def emptyPage : PageModel := { css := fun _ => [], xpath := fun _ => [] }

def nextOnlyPage : PageModel :=
  { css := fun sel =>
      if sel = "a[aria-label=\x27Next\x27]" then
        [{ text := "Next", displayed := true, enabled := true, clickOk := true }]
      else [],
    xpath := fun _ => [] }

/-- Closed instance of `click_next_characterization`: a page with only an
enabled Next control advances, and a session whose first page has no
pagination control at all stops right there. -/
theorem click_next_characterization_witness :
    (click_next_if_available nextOnlyPage).1 = true ∧
    sessionRun [emptyPage, nextOnlyPage] = [emptyPage] := by
  constructor
  · exact ((click_next_characterization.1 nextOnlyPage).1).mpr
      (Or.inr (by rw [← fallbackPhase_true_iff]; decide))
  · have h := (click_next_characterization.2 [emptyPage, nextOnlyPage]).2 0
      (by decide) (fun j hj hj0 => absurd hj0 (Nat.not_lt_zero j)) (by decide)
    simpa using h

theorem tryButtons_events (sel : String) (bs : List DElem) :
    ∀ ev ∈ (tryButtons sel bs).2, ev = NavEvent.nextClick sel := by
  induction bs with
  | nil => intro ev hev; simp [tryButtons] at hev
  | cons b t ih =>
    intro ev hev
    unfold tryButtons at hev
    by_cases hd : (b.displayed && b.enabled) = true
    · rw [if_pos hd] at hev
      by_cases hc : b.clickOk = true
      · rw [if_pos hc] at hev
        simpa using hev
      · rw [if_neg hc] at hev
        rcases List.mem_cons.mp hev with rfl | hmem
        · rfl
        · exact ih ev hmem
    · rw [if_neg hd] at hev
      exact ih ev hev

theorem foldl_fallback_events (p : PageModel) (sels : List String)
    (acc : Bool × List NavEvent)
    (hacc : ∀ ev ∈ acc.2, ∃ sel, ev = NavEvent.nextClick sel) :
    ∀ ev ∈ (sels.foldl (fun acc sel =>
        if acc.1 then acc
        else
          let r := tryButtons sel (p.css sel)
          (r.1, acc.2 ++ r.2)) acc).2,
      ∃ sel, ev = NavEvent.nextClick sel := by
  induction sels generalizing acc with
  | nil => exact hacc
  | cons s t ih =>
    simp only [List.foldl_cons]
    by_cases ha : acc.1 = true
    · rw [if_pos ha]
      exact ih acc hacc
    · rw [if_neg ha]
      refine ih _ ?_
      intro ev hev
      rcases List.mem_append.mp hev with hmem | hmem
      · exact hacc ev hmem
      · exact ⟨s, tryButtons_events s (p.css s) ev hmem⟩

theorem fallbackPhase_events (p : PageModel) :
    ∀ ev ∈ (fallbackPhase p).2, ∃ sel, ev = NavEvent.nextClick sel := by
  unfold fallbackPhase
  exact foldl_fallback_events p next_button_candidates (false, [])
    (by intro ev hev; simp at hev)

/-- C10: when an active page indicator is found but its trimmed text is
not a digit string, the call reduces exactly to the generic fallback: no
numeric click attempt is recorded, no exception escapes (the embedding is
total and the digit test guards the numeric branch), and the return value
is `true` exactly when some visible-and-enabled Next control clicks
successfully. -/
theorem click_next_nonnumeric_indicator (p : PageModel) (el : DElem)
    (hA : activeIndicator p = some el)
    (hd : pyIsDigit (pyTrim el.text) = false) :
    click_next_if_available p = fallbackPhase p ∧
    (∀ n, NavEvent.numClick n ∉ (click_next_if_available p).2) ∧
    ((click_next_if_available p).1 = true ↔ GenericSuccess p) := by
  have hnum : numericPhase p = (false, []) := by
    unfold numericPhase
    rw [hA]
    simp [hd]
  have hget : click_next_if_available p = fallbackPhase p := by
    unfold click_next_if_available
    rw [hnum]
    simp
  refine ⟨hget, ?_, ?_⟩
  · intro n hmem
    rw [hget] at hmem
    obtain ⟨sel, hsel⟩ := fallbackPhase_events p _ hmem
    exact NavEvent.noConfusion hsel
  · rw [hget]
    exact fallbackPhase_true_iff p

def c10Page : PageModel :=
  { css := fun sel =>
      if sel = "strong[aria-current=\x27page\x27]" then
        [{ text := "abc", displayed := true, enabled := true, clickOk := true }]
      else if sel = "a[aria-label=\x27Next\x27]" then
        [{ text := "Next", displayed := true, enabled := true, clickOk := true }]
      else [],
    xpath := fun _ => [] }

/-- Closed instance of `click_next_nonnumeric_indicator` on a page whose
indicator reads `abc` and that still has an enabled Next control. -/
theorem click_next_nonnumeric_indicator_witness :
    click_next_if_available c10Page = fallbackPhase c10Page ∧
    (click_next_if_available c10Page).1 = true := by
  obtain ⟨h1, _, h3⟩ := click_next_nonnumeric_indicator c10Page
    { text := "abc", displayed := true, enabled := true, clickOk := true }
    (by decide) (by decide)
  exact ⟨h1, h3.mpr (by rw [← fallbackPhase_true_iff]; decide)⟩

/-! ## The Discover retry loop of `scrape_results` (lines 296-314)

One poll models one iteration of the inner `while` loop: `.ok cards` when
`find_cards` and the staleness probe (`cards[0].tag_name`) both succeed,
`.error ()` when any exception is raised inside the `try` (the `except`
swallows it completely and the loop retries after the 1-second sleep).
The finite poll list is the wall-clock budget: the loop runs at most
`DEFAULT_WAIT_SECONDS` iterations of 1-second polls. -/

def discoverLoop : List (Except Unit (List Card)) → List Card
  | [] => []
  | poll :: ps =>
    match poll with
    | .error _ => discoverLoop ps
    | .ok cs => if cs.isEmpty then discoverLoop ps else cs

/-- C3: within its finite poll budget the Discover loop returns the first
non-empty successful poll, retrying past transient exceptions and past
empty results alike; when every poll in the budget raises or finds
nothing, it returns the empty card set (the warning path) instead of
propagating anything — the embedding is total into `List Card`, so no
exception ever reaches the session driver. -/
theorem discoverLoop_spec (polls : List (Except Unit (List Card))) :
    discoverLoop polls =
      (polls.findSome? (fun r =>
        match r with
        | .ok cs => if cs.isEmpty then none else some cs
        | .error _ => none)).getD [] ∧
    ((∀ r ∈ polls, r = .error () ∨ r = .ok []) → discoverLoop polls = []) := by
  constructor
  · induction polls with
    | nil => rfl
    | cons poll ps ih =>
      cases poll with
      | error e =>
        cases e
        simpa [discoverLoop, List.findSome?_cons] using ih
      | ok cs =>
        cases cs with
        | nil => simpa [discoverLoop, List.findSome?_cons] using ih
        | cons c ct => simp [discoverLoop, List.findSome?_cons]
  · intro hall
    induction polls with
    | nil => rfl
    | cons poll ps ih =>
      rcases hall poll (List.mem_cons_self poll ps) with rfl | rfl
      · exact ih (fun r hr => hall r (List.mem_cons_of_mem _ hr))
      · simpa [discoverLoop] using
          ih (fun r hr => hall r (List.mem_cons_of_mem _ hr))

/-- Closed instance of `discoverLoop_spec`: a budget in which every poll
raises or finds nothing ends with the empty card set, and a later
successful poll is returned as soon as it happens. -/
theorem discoverLoop_spec_witness :
    discoverLoop [Except.error (), Except.ok ([] : List Card)] = [] ∧
    discoverLoop [Except.error (), Except.ok [emptyCard]] = [emptyCard] := by
  constructor
  · exact (discoverLoop_spec [Except.error (), Except.ok []]).2
      (by
        intro r hr
        rcases List.mem_cons.mp hr with rfl | hr2
        · exact Or.inl rfl
        · rcases List.mem_cons.mp hr2 with rfl | h3
          · exact Or.inr rfl
          · cases h3)
  · have h := (discoverLoop_spec [Except.error (), Except.ok [emptyCard]]).1
    simpa [List.findSome?_cons] using h

/-! ## `get_email_from_profile` (lines 92-115) and its caller (199-206)

The window state of the driver is the list of open window handles (in creation
order) and the focused handle.  The body oracle stands for everything
inside the `try` block: the bounded selector wait (which may raise
`TimeoutException`), the mailto scan, and the body-text fallback; `.error`
is any exception raised there. -/

structure DriverState where
  windows : List Nat
  focus : Nat
deriving DecidableEq

/-- A handle not yet in use, for the tab created by `window.open`
(line 94). -/
def freshHandle (s : DriverState) : Nat := s.windows.foldr max 0 + 1

/-- Line 94: `window.open` appends a new window handle. -/
def openNewContext (s : DriverState) : DriverState :=
  { s with windows := s.windows ++ [freshHandle s] }

/-- Line 95: focus the last handle of `window_handles`. -/
def switchToLast (s : DriverState) : DriverState :=
  { s with focus := s.windows.getLastD s.focus }

/-- Line 114: `driver.close()` removes the focused window. -/
def closeContext (s : DriverState) : DriverState :=
  { s with windows := s.windows.erase s.focus }

/-- Line 115: focus an explicit handle. -/
def switchToWindow (s : DriverState) (w : Nat) : DriverState :=
  { s with focus := w }

/-- Embeds `get_email_from_profile` (lines 92-115): open a secondary context,
focus it, run the lookup body, then — in the `finally` — close the
secondary context and restore focus to the original window, whether the
body returned or raised; the outcome of the body is then returned or
re-raised. -/
def get_email_from_profile (s : DriverState)
    (lookupBody : Except Unit (Option String)) :
    Except Unit (Option String) × DriverState :=
  let original := s.focus
  let s1 := switchToLast (openNewContext s)
  let result := lookupBody
  let s2 := switchToWindow (closeContext s1) original
  (result, s2)

/-- Lines 199-206 of `parse_card`: the caller catches every exception from
the lookup and treats it as no email found (stored as the empty string in
the record). -/
def profileEmailLookup (s : DriverState)
    (lookupBody : Except Unit (Option String)) :
    Option String × DriverState :=
  let r := get_email_from_profile s lookupBody
  (match r.1 with
   | .ok e => e
   | .error _ => none, r.2)

theorem le_foldr_max (l : List Nat) : ∀ x ∈ l, x ≤ l.foldr max 0 := by
  induction l with
  | nil => intro x hx; cases hx
  | cons a t ih =>
    intro x hx
    rcases List.mem_cons.mp hx with rfl | hmem
    · exact Nat.le_max_left x (t.foldr max 0)
    · exact Nat.le_trans (ih x hmem) (Nat.le_max_right a (t.foldr max 0))

theorem freshHandle_not_mem (s : DriverState) : freshHandle s ∉ s.windows := by
  intro hmem
  have := le_foldr_max s.windows (freshHandle s) hmem
  unfold freshHandle at this
  omega

theorem getLastD_append_singleton (l : List Nat) (a d : Nat) :
    (l ++ [a]).getLastD d = a := by
  induction l generalizing d with
  | nil => rfl
  | cons b t ih =>
    show (b :: (t ++ [a])).getLastD d = a
    rw [List.getLastD_cons]
    exact ih b

theorem erase_append_fresh (l : List Nat) (a : Nat) (h : a ∉ l) :
    (l ++ [a]).erase a = l := by
  rw [List.erase_append_right _ h]
  simp [List.erase_cons_head]

/-- C7: for every outcome of the profile-lookup body — in particular for
every exception raised while manipulating the secondary browsing context —
the caller swallows the failure into "no email" (hence an empty-string
email in the record), and the secondary context is closed and focus is
restored to the original window unconditionally before the lookup
returns. -/
theorem profileEmailLookup_cleanup (s : DriverState)
    (body : Except Unit (Option String)) :
    (profileEmailLookup s body).2.windows = s.windows ∧
    (profileEmailLookup s body).2.focus = s.focus ∧
    (body = .error () →
      (profileEmailLookup s body).1 = none ∧
      ((profileEmailLookup s body).1.getD "") = "") := by
  have hw : (profileEmailLookup s body).2.windows = s.windows := by
    show ((s.windows ++ [freshHandle s]).erase
      ((s.windows ++ [freshHandle s]).getLastD s.focus)) = s.windows
    rw [getLastD_append_singleton]
    exact erase_append_fresh s.windows (freshHandle s) (freshHandle_not_mem s)
  refine ⟨hw, rfl, ?_⟩
  rintro rfl
  exact ⟨rfl, rfl⟩

/-- Closed instance of `profileEmailLookup_cleanup`: a lookup whose body
raises yields no email and leaves the driver with its original single
window focused. -/
theorem profileEmailLookup_cleanup_witness :
    (profileEmailLookup ⟨[5], 5⟩ (Except.error ())).2 = ⟨[5], 5⟩ ∧
    (profileEmailLookup ⟨[5], 5⟩ (Except.error ())).1 = none := by
  obtain ⟨h1, h2, h3⟩ := profileEmailLookup_cleanup ⟨[5], 5⟩ (Except.error ())
  refine ⟨?_, (h3 rfl).1⟩
  cases hx : (profileEmailLookup ⟨[5], 5⟩ (Except.error ())).2 with
  | mk w f =>
    rw [hx] at h1 h2
    simp at h1 h2
    rw [h1, h2]

end StanfordWho
